import Mathlib

/-!
Verification of the `turbo-tasks-fetch` crate
(src/crates/turbo-tasks-fetch/src/lib.rs) against its specification.

The crate provides a single HTTP fetch primitive plus an error model:
* `HttpResponseBody` / `HttpResponse` — the success payload,
* `FetchErrorKind` / `FetchError` — a classified failure,
* `fetch` — one GET request, classified into `FetchResult`,
* `FetchIssue` — the diagnostic adapter for the issue pipeline.

The shallow embedding below translates the Rust source.  The HTTP
transport (`reqwest`) is external; we model its observable interface:
a request value built by the client, and a send outcome that is either a
response (status, status-error message, and a body read that may fail)
or a transport error carrying the `is_connect` / `is_timeout` /
`status()` flags the classification code inspects.  Machine strings are
Lean `String`s; byte buffers are `List Nat` with each byte below 256
where it matters.
-/

/-- Model of `reqwest::Error` as observed by `FetchError::from_reqwest_error`:
the three classification probes (`is_connect`, `is_timeout`, `status()`)
plus the display text used for `detail`. -/
structure ReqwestError where
  isConnect : Bool
  isTimeout : Bool
  status : Option Nat
  message : String
  deriving Repr, DecidableEq

/-- `StyledString` from `turbopack_core::issue`; the crate only ever builds
the `Text` variant. -/
inductive StyledString where
  | Text (s : String)
  deriving Repr, DecidableEq

/-- `pub struct HttpResponseBody(pub Vec<u8>)`. -/
structure HttpResponseBody where
  bytes : List Nat
  deriving Repr, DecidableEq

/-- `pub struct HttpResponse { status: u16, body: HttpResponseBody }`. -/
structure HttpResponse where
  status : Nat
  body : HttpResponseBody
  deriving Repr, DecidableEq

/-- `pub enum FetchErrorKind { Connect, Timeout, Status(u16), Other }`. -/
inductive FetchErrorKind where
  | Connect
  | Timeout
  | Status (code : Nat)
  | Other
  deriving Repr, DecidableEq

/-- `pub struct FetchError { url, kind, detail }`. -/
structure FetchError where
  url : String
  kind : FetchErrorKind
  detail : StyledString
  deriving Repr, DecidableEq

/-- `FetchError::from_reqwest_error`: classify a transport error in the
priority order connect, timeout, status, other, and keep the transport
error's own display text as `detail`. -/
def FetchError.from_reqwest_error (error : ReqwestError) (url : String) : FetchError :=
  let kind :=
    if error.isConnect then
      FetchErrorKind.Connect
    else if error.isTimeout then
      FetchErrorKind.Timeout
    else
      match error.status with
      | some status => FetchErrorKind.Status status
      | none => FetchErrorKind.Other
  { detail := StyledString.Text error.message
    url := url
    kind := kind }

/-- The outbound HTTP request assembled by `fetch` before sending:
`client.get(&url)` plus the optional `User-Agent` header. -/
structure Request where
  method : String
  url : String
  headers : List (String × String)
  deriving Repr, DecidableEq

/-- The request-building phase of `fetch`: a GET for `url`, with a
`User-Agent` header appended exactly when `user_agent` is `Some`. -/
def buildRequest (url : String) (user_agent : Option String) : Request :=
  let builder : Request := { method := "GET", url := url, headers := [] }
  match user_agent with
  | some ua => { builder with headers := builder.headers ++ [("User-Agent", ua)] }
  | none => builder

/-- Outcome of `builder.send().await` as `fetch` observes it: either a
response — final status, the message a status error would carry, and the
body read which may itself fail with a transport error text — or a
transport failure before any status line. -/
inductive SendOutcome where
  | response (status : Nat) (statusMsg : String) (bodyRead : Except String (List Nat))
  | failure (e : ReqwestError)
  deriving Repr

/-- `reqwest::Response::error_for_status`: statuses 400..=599
(`is_client_error() || is_server_error()`) become an error whose
`status()` probe returns the code; every other status passes through. -/
def error_for_status (status : Nat) (msg : String) : Except ReqwestError Nat :=
  if 400 ≤ status ∧ status ≤ 599 then
    Except.error { isConnect := false, isTimeout := false, status := some status, message := msg }
  else
    Except.ok status

/-- `fetch(url, user_agent)`.  The transport is passed in as `send`; the
outer `Except String` models the `anyhow::Result` layer (`?` on the body
read is a hard failure), the inner `Except FetchError HttpResponse`
models `FetchResult`. -/
def fetch (url : String) (user_agent : Option String)
    (send : Request → SendOutcome) : Except String (Except FetchError HttpResponse) :=
  let req := buildRequest url user_agent
  match send req with
  | SendOutcome.failure err =>
      Except.ok (Except.error (FetchError.from_reqwest_error err url))
  | SendOutcome.response status statusMsg bodyRead =>
      match error_for_status status statusMsg with
      | Except.error err =>
          Except.ok (Except.error (FetchError.from_reqwest_error err url))
      | Except.ok status =>
          match bodyRead with
          | Except.error ioerr => Except.error ioerr
          | Except.ok body =>
              Except.ok (Except.ok { status := status, body := { bytes := body } })

/-- A transport that ignores the request and always yields `o`; used for
concrete evaluations. -/
def constSend (o : SendOutcome) : Request → SendOutcome :=
  fun _ => o

/-- `pub struct FetchIssue { issue_context, severity, url, kind, detail }`.
`IssueSeverity` and `FileSystemPath` are opaque collaborators; we model
them as an arbitrary severity label and a path string. -/
structure FetchIssue where
  issue_context : String
  severity : Nat
  url : String
  kind : FetchErrorKind
  detail : StyledString
  deriving Repr, DecidableEq

/-- `FetchError::to_issue`: copy the error's fields next to the supplied
severity and context location. -/
def FetchError.to_issue (self : FetchError) (severity : Nat)
    (issue_context : String) : FetchIssue :=
  { issue_context := issue_context
    severity := severity
    url := self.url
    kind := self.kind
    detail := self.detail }

/-- `Issue::file_path` for `FetchIssue`. -/
def FetchIssue.file_path (self : FetchIssue) : String :=
  self.issue_context

/-- `Issue::severity` for `FetchIssue`. -/
def FetchIssue.severity_of (self : FetchIssue) : Nat :=
  self.severity

/-- `Issue::title` for `FetchIssue`. -/
def FetchIssue.title (_self : FetchIssue) : StyledString :=
  StyledString.Text "Error while requesting resource"

/-- `Issue::category` for `FetchIssue`. -/
def FetchIssue.category (_self : FetchIssue) : String :=
  "fetch"

/-- `Issue::description` for `FetchIssue`: one of four templates keyed by
the error kind, with the url (and status code) substituted in. -/
def FetchIssue.description (self : FetchIssue) : Option StyledString :=
  some (StyledString.Text
    (match self.kind with
     | FetchErrorKind.Connect =>
         "There was an issue establishing a connection while requesting " ++ self.url ++ "."
     | FetchErrorKind.Status status =>
         "Received response with status " ++ toString status ++ " when requesting " ++ self.url
     | FetchErrorKind.Timeout =>
         "Connection timed out when requesting " ++ self.url
     | FetchErrorKind.Other =>
         "There was an issue requesting " ++ self.url))

/-- `Issue::detail` for `FetchIssue`: the stored detail, wrapped into
`OptionStyledString`. -/
def FetchIssue.detail_of (self : FetchIssue) : Option StyledString :=
  some self.detail

/-- The Unicode replacement character U+FFFD, emitted by the lossy decoder
for each invalid byte sequence. -/
def replacementChar : Nat := 0xFFFD

/-- Whether a byte is a UTF-8 continuation byte (`0x80..=0xBF`). -/
def isCont (b : Nat) : Prop :=
  0x80 ≤ b ∧ b ≤ 0xBF

instance (b : Nat) : Decidable (isCont b) := by
  unfold isCont
  infer_instance

/-- Admissible second byte of a multi-byte UTF-8 sequence, given the lead
byte: the restricted ranges for `0xE0`, `0xED`, `0xF0`, `0xF4` exclude
overlong forms, surrogates and code points above U+10FFFF. -/
def validSecond (b0 b1 : Nat) : Prop :=
  if b0 = 0xE0 then 0xA0 ≤ b1 ∧ b1 ≤ 0xBF
  else if b0 = 0xED then 0x80 ≤ b1 ∧ b1 ≤ 0x9F
  else if b0 = 0xF0 then 0x90 ≤ b1 ∧ b1 ≤ 0xBF
  else if b0 = 0xF4 then 0x80 ≤ b1 ∧ b1 ≤ 0x8F
  else isCont b1

instance (b0 b1 : Nat) : Decidable (validSecond b0 b1) := by
  unfold validSecond
  infer_instance

/-- Model of Rust `String::from_utf8_lossy` (the standard-library
collaborator called by `HttpResponseBody::to_string`), producing the
decoded sequence of Unicode scalar values.  It follows the standard
library's validation: well-formed sequences decode to their scalar, and
each maximal subpart of an ill-formed sequence is replaced by one
U+FFFD — an invalid lead byte or an invalid byte after a valid partial
sequence throws away only the bytes read so far and resumes at the
offending byte, while a sequence truncated by the end of input becomes a
single replacement character. -/
def decodeLossy : List Nat → List Nat
  | [] => []
  | b0 :: rest =>
    if b0 < 0x80 then
      b0 :: decodeLossy rest
    else if 0xC2 ≤ b0 ∧ b0 ≤ 0xDF then
      match rest with
      | [] => [replacementChar]
      | b1 :: rest1 =>
        if isCont b1 then
          ((b0 - 0xC0) * 0x40 + (b1 - 0x80)) :: decodeLossy rest1
        else
          replacementChar :: decodeLossy (b1 :: rest1)
    else if 0xE0 ≤ b0 ∧ b0 ≤ 0xEF then
      match rest with
      | [] => [replacementChar]
      | b1 :: rest1 =>
        if validSecond b0 b1 then
          match rest1 with
          | [] => [replacementChar]
          | b2 :: rest2 =>
            if isCont b2 then
              ((b0 - 0xE0) * 0x1000 + (b1 - 0x80) * 0x40 + (b2 - 0x80)) :: decodeLossy rest2
            else
              replacementChar :: decodeLossy (b2 :: rest2)
        else
          replacementChar :: decodeLossy (b1 :: rest1)
    else if 0xF0 ≤ b0 ∧ b0 ≤ 0xF4 then
      match rest with
      | [] => [replacementChar]
      | b1 :: rest1 =>
        if validSecond b0 b1 then
          match rest1 with
          | [] => [replacementChar]
          | b2 :: rest2 =>
            if isCont b2 then
              match rest2 with
              | [] => [replacementChar]
              | b3 :: rest3 =>
                if isCont b3 then
                  ((b0 - 0xF0) * 0x40000 + (b1 - 0x80) * 0x1000
                    + (b2 - 0x80) * 0x40 + (b3 - 0x80)) :: decodeLossy rest3
                else
                  replacementChar :: decodeLossy (b3 :: rest3)
            else
              replacementChar :: decodeLossy (b2 :: rest2)
        else
          replacementChar :: decodeLossy (b1 :: rest1)
    else
      replacementChar :: decodeLossy rest

/-- `HttpResponseBody::to_string`: lossy-decode the byte buffer, viewed
as the sequence of Unicode scalar values of the resulting string. -/
def HttpResponseBody.to_string (self : HttpResponseBody) : List Nat :=
  decodeLossy self.bytes

/-- The UTF-8 encoding of a single Unicode scalar value. -/
def encodeChar (c : Nat) : List Nat :=
  if c < 0x80 then [c]
  else if c < 0x800 then
    [0xC0 + c / 0x40, 0x80 + c % 0x40]
  else if c < 0x10000 then
    [0xE0 + c / 0x1000, 0x80 + c / 0x40 % 0x40, 0x80 + c % 0x40]
  else
    [0xF0 + c / 0x40000, 0x80 + c / 0x1000 % 0x40, 0x80 + c / 0x40 % 0x40, 0x80 + c % 0x40]

/-- UTF-8 encoding of a character sequence. -/
def utf8EncodeList : List Char → List Nat
  | [] => []
  | c :: cs => encodeChar c.toNat ++ utf8EncodeList cs

/-- UTF-8 encoding of a string, byte by byte. -/
def utf8Encode (s : String) : List Nat :=
  utf8EncodeList s.data

/-- Every Lean character is a Unicode scalar value: below the surrogate
range or between it and U+110000. -/
theorem char_toNat_valid (c : Char) :
    c.toNat < 0xD800 ∨ (0xE000 ≤ c.toNat ∧ c.toNat < 0x110000) := by
  have h := c.valid
  unfold UInt32.isValidChar at h
  rcases h with h | ⟨hl, hr⟩
  · left
    exact h
  · right
    exact ⟨hl, hr⟩

/-- Decoding step for a single ASCII byte. -/
theorem decodeLossy_one (b : Nat) (rest : List Nat) (h : b < 0x80) :
    decodeLossy (b :: rest) = b :: decodeLossy rest := by
  conv_lhs => rw [decodeLossy.eq_def]
  simp [h]

/-- Decoding step for a well-formed two-byte sequence. -/
theorem decodeLossy_two (n : Nat) (rest : List Nat) (h1 : 0x80 ≤ n) (h2 : n < 0x800) :
    decodeLossy ((0xC0 + n / 0x40) :: (0x80 + n % 0x40) :: rest) = n :: decodeLossy rest := by
  have ha : ¬ (0xC0 + n / 0x40 < 0x80) := by omega
  have hb : 0xC2 ≤ 0xC0 + n / 0x40 ∧ 0xC0 + n / 0x40 ≤ 0xDF := by omega
  have hc : isCont (0x80 + n % 0x40) := by unfold isCont; omega
  conv_lhs => rw [decodeLossy.eq_def]
  simp [ha, hb, hc]
  omega

/-- Decoding step for a well-formed three-byte sequence (the scalar must
avoid the surrogate range). -/
theorem decodeLossy_three (n : Nat) (rest : List Nat) (h1 : 0x800 ≤ n) (h2 : n < 0x10000)
    (hs : n < 0xD800 ∨ 0xE000 ≤ n) :
    decodeLossy ((0xE0 + n / 0x1000) :: (0x80 + n / 0x40 % 0x40) :: (0x80 + n % 0x40) :: rest)
      = n :: decodeLossy rest := by
  have ha : ¬ (0xE0 + n / 0x1000 < 0x80) := by omega
  have hb : ¬ (0xC2 ≤ 0xE0 + n / 0x1000 ∧ 0xE0 + n / 0x1000 ≤ 0xDF) := by omega
  have hc : 0xE0 ≤ 0xE0 + n / 0x1000 ∧ 0xE0 + n / 0x1000 ≤ 0xEF := by omega
  have hv : validSecond (0xE0 + n / 0x1000) (0x80 + n / 0x40 % 0x40) := by
    unfold validSecond isCont
    split_ifs <;> omega
  have hd : isCont (0x80 + n % 0x40) := by unfold isCont; omega
  conv_lhs => rw [decodeLossy.eq_def]
  simp [ha, hb, hc, hv, hd]
  omega

/-- Decoding step for a well-formed four-byte sequence. -/
theorem decodeLossy_four (n : Nat) (rest : List Nat) (h1 : 0x10000 ≤ n) (h2 : n < 0x110000) :
    decodeLossy ((0xF0 + n / 0x40000) :: (0x80 + n / 0x1000 % 0x40)
        :: (0x80 + n / 0x40 % 0x40) :: (0x80 + n % 0x40) :: rest)
      = n :: decodeLossy rest := by
  have ha : ¬ (0xF0 + n / 0x40000 < 0x80) := by omega
  have hb : ¬ (0xC2 ≤ 0xF0 + n / 0x40000 ∧ 0xF0 + n / 0x40000 ≤ 0xDF) := by omega
  have hc : ¬ (0xE0 ≤ 0xF0 + n / 0x40000 ∧ 0xF0 + n / 0x40000 ≤ 0xEF) := by omega
  have hcc : 0xF0 ≤ 0xF0 + n / 0x40000 ∧ 0xF0 + n / 0x40000 ≤ 0xF4 := by omega
  have hv : validSecond (0xF0 + n / 0x40000) (0x80 + n / 0x1000 % 0x40) := by
    unfold validSecond isCont
    split_ifs <;> omega
  have hd : isCont (0x80 + n / 0x40 % 0x40) := by unfold isCont; omega
  have he : isCont (0x80 + n % 0x40) := by unfold isCont; omega
  conv_lhs => rw [decodeLossy.eq_def]
  simp [ha, hb, hc, hcc, hv, hd, he]
  omega

/-- The lossy decoder consumes the encoding of one character and yields
exactly that character, independently of what follows. -/
theorem decodeLossy_encodeChar (c : Char) (rest : List Nat) :
    decodeLossy (encodeChar c.toNat ++ rest) = c.toNat :: decodeLossy rest := by
  have hv := char_toNat_valid c
  by_cases h1 : c.toNat < 0x80
  · rw [show encodeChar c.toNat = [c.toNat] from by simp [encodeChar, h1]]
    exact decodeLossy_one c.toNat rest h1
  · by_cases h2 : c.toNat < 0x800
    · rw [show encodeChar c.toNat = [0xC0 + c.toNat / 0x40, 0x80 + c.toNat % 0x40] from by
        simp [encodeChar, h1, h2]]
      exact decodeLossy_two c.toNat rest (by omega) h2
    · by_cases h3 : c.toNat < 0x10000
      · rw [show encodeChar c.toNat =
            [0xE0 + c.toNat / 0x1000, 0x80 + c.toNat / 0x40 % 0x40, 0x80 + c.toNat % 0x40] from by
          simp [encodeChar, h1, h2, h3]]
        exact decodeLossy_three c.toNat rest (by omega) h3 (by omega)
      · rw [show encodeChar c.toNat =
            [0xF0 + c.toNat / 0x40000, 0x80 + c.toNat / 0x1000 % 0x40,
             0x80 + c.toNat / 0x40 % 0x40, 0x80 + c.toNat % 0x40] from by
          simp [encodeChar, h1, h2, h3]]
        exact decodeLossy_four c.toNat rest (by omega) (by omega)

/-- The lossy decoder recovers an encoded character sequence verbatim,
independently of what follows it. -/
theorem decodeLossy_encodeList (cs : List Char) (rest : List Nat) :
    decodeLossy (utf8EncodeList cs ++ rest) = cs.map Char.toNat ++ decodeLossy rest := by
  induction cs with
  | nil => simp [utf8EncodeList]
  | cons c cs ih =>
    simp only [utf8EncodeList, List.append_assoc, List.map_cons, List.cons_append]
    rw [decodeLossy_encodeChar, ih]

/-- Unfolding of `Nat.isValidChar` as plain bounds. -/
theorem natValid_of (n : Nat) (h : n < 0xD800 ∨ (0xE000 ≤ n ∧ n < 0x110000)) :
    Nat.isValidChar n := h

set_option maxRecDepth 4096 in
/-- Every code point emitted by the lossy decoder is a Unicode scalar
value, so the decoder output always forms a string. -/
theorem decodeLossy_valid (bs : List Nat) : ∀ x ∈ decodeLossy bs, Nat.isValidChar x := by
  induction bs using decodeLossy.induct with
  | case1 =>
      intro x hx
      rw [decodeLossy.eq_def] at hx
      simp at hx
  | case2 b0 rest h ih =>
      intro x hx
      rw [decodeLossy.eq_def] at hx
      simp [h] at hx
      rcases hx with rfl | hx
      · exact natValid_of x (by omega)
      · exact ih x hx
  | case3 b0 h1 h2 =>
      intro x hx
      rw [decodeLossy.eq_def] at hx
      simp [h1, h2, replacementChar] at hx
      exact natValid_of x (by omega)
  | case4 b0 h1 h2 b1 rest1 hc ih =>
      intro x hx
      rw [decodeLossy.eq_def] at hx
      simp [h1, h2, hc] at hx
      rcases hx with rfl | hx
      · unfold isCont at hc
        exact natValid_of _ (by omega)
      · exact ih x hx
  | case5 b0 h1 h2 b1 rest1 hnc ih =>
      intro x hx
      rw [decodeLossy.eq_def] at hx
      simp [h1, h2, hnc, replacementChar] at hx
      rcases hx with rfl | hx
      · exact natValid_of _ (by omega)
      · exact ih x hx
  | case6 b0 h1 h2 h3 =>
      intro x hx
      rw [decodeLossy.eq_def] at hx
      simp [h1, h2, h3, replacementChar] at hx
      exact natValid_of x (by omega)
  | case7 b0 h1 h2 h3 b1 hv =>
      intro x hx
      rw [decodeLossy.eq_def] at hx
      simp [h1, h2, h3, hv, replacementChar] at hx
      exact natValid_of x (by omega)
  | case8 b0 h1 h2 h3 b1 hv b2 rest2 hc ih =>
      intro x hx
      rw [decodeLossy.eq_def] at hx
      simp [h1, h2, h3, hv, hc] at hx
      rcases hx with rfl | hx
      · unfold isCont at hc
        apply natValid_of
        unfold validSecond isCont at hv
        split_ifs at hv <;> omega
      · exact ih x hx
  | case9 b0 h1 h2 h3 b1 hv b2 rest2 hnc ih =>
      intro x hx
      rw [decodeLossy.eq_def] at hx
      simp [h1, h2, h3, hv, hnc, replacementChar] at hx
      rcases hx with rfl | hx
      · exact natValid_of _ (by omega)
      · exact ih x hx
  | case10 b0 h1 h2 h3 b1 rest1 hnv ih =>
      intro x hx
      rw [decodeLossy.eq_def] at hx
      simp [h1, h2, h3, hnv, replacementChar] at hx
      rcases hx with rfl | hx
      · exact natValid_of _ (by omega)
      · exact ih x hx
  | case11 b0 h1 h2 h3 h4 =>
      intro x hx
      rw [decodeLossy.eq_def] at hx
      simp [h1, h2, h3, h4, replacementChar] at hx
      exact natValid_of x (by omega)
  | case12 b0 h1 h2 h3 h4 b1 hv =>
      intro x hx
      rw [decodeLossy.eq_def] at hx
      simp [h1, h2, h3, h4, hv, replacementChar] at hx
      exact natValid_of x (by omega)
  | case13 b0 h1 h2 h3 h4 b1 hv b2 hc =>
      intro x hx
      rw [decodeLossy.eq_def] at hx
      simp [h1, h2, h3, h4, hv, hc, replacementChar] at hx
      exact natValid_of x (by omega)
  | case14 b0 h1 h2 h3 h4 b1 hv b2 hc b3 rest3 hc3 ih =>
      intro x hx
      rw [decodeLossy.eq_def] at hx
      simp [h1, h2, h3, h4, hv, hc, hc3] at hx
      rcases hx with rfl | hx
      · unfold isCont at hc hc3
        apply natValid_of
        unfold validSecond isCont at hv
        split_ifs at hv <;> omega
      · exact ih x hx
  | case15 b0 h1 h2 h3 h4 b1 hv b2 hc b3 rest3 hnc ih =>
      intro x hx
      rw [decodeLossy.eq_def] at hx
      simp [h1, h2, h3, h4, hv, hc, hnc, replacementChar] at hx
      rcases hx with rfl | hx
      · exact natValid_of _ (by omega)
      · exact ih x hx
  | case16 b0 h1 h2 h3 h4 b1 hv b2 rest2 hnc ih =>
      intro x hx
      rw [decodeLossy.eq_def] at hx
      simp [h1, h2, h3, h4, hv, hnc, replacementChar] at hx
      rcases hx with rfl | hx
      · exact natValid_of _ (by omega)
      · exact ih x hx
  | case17 b0 h1 h2 h3 h4 b1 rest1 hnv ih =>
      intro x hx
      rw [decodeLossy.eq_def] at hx
      simp [h1, h2, h3, h4, hnv, replacementChar] at hx
      rcases hx with rfl | hx
      · exact natValid_of _ (by omega)
      · exact ih x hx
  | case18 b0 rest1 h1 h2 h3 h4 ih =>
      intro x hx
      rw [decodeLossy.eq_def] at hx
      simp [h1, h2, h3, h4, replacementChar] at hx
      rcases hx with rfl | hx
      · exact natValid_of _ (by omega)
      · exact ih x hx

theorem fetch_send_failure (url : String) (ua : Option String) (send : Request → SendOutcome)
    (e : ReqwestError) (hs : send (buildRequest url ua) = SendOutcome.failure e) :
    fetch url ua send = Except.ok (Except.error (FetchError.from_reqwest_error e url)) := by
  simp only [fetch]
  rw [hs]

theorem fetch_response_error_status (url : String) (ua : Option String)
    (send : Request → SendOutcome) (s : Nat) (msg : String) (body : Except String (List Nat))
    (hs : send (buildRequest url ua) = SendOutcome.response s msg body)
    (h4 : 400 ≤ s) (h5 : s ≤ 599) :
    fetch url ua send = Except.ok (Except.error
      { url := url, kind := FetchErrorKind.Status s, detail := StyledString.Text msg }) := by
  simp only [fetch]
  conv_lhs => rw [hs]
  simp [error_for_status, FetchError.from_reqwest_error, h4, h5]

theorem fetch_response_ok_body (url : String) (ua : Option String)
    (send : Request → SendOutcome) (s : Nat) (msg : String) (bytes : List Nat)
    (hs : send (buildRequest url ua) = SendOutcome.response s msg (Except.ok bytes))
    (hns : ¬(400 ≤ s ∧ s ≤ 599)) :
    fetch url ua send = Except.ok (Except.ok { status := s, body := { bytes := bytes } }) := by
  simp only [fetch]
  conv_lhs => rw [hs]
  simp [error_for_status, hns]

theorem fetch_response_body_failure (url : String) (ua : Option String)
    (send : Request → SendOutcome) (s : Nat) (msg : String) (ioerr : String)
    (hs : send (buildRequest url ua) = SendOutcome.response s msg (Except.error ioerr))
    (hns : ¬(400 ≤ s ∧ s ≤ 599)) :
    fetch url ua send = Except.error ioerr := by
  simp only [fetch]
  conv_lhs => rw [hs]
  simp [error_for_status, hns]

/-- Claim C1 (counterexample): a response with HTTP status 304 — which is
at least 300 — is not turned into a `Status` error: `fetch` returns `Ok`
with the response, because `error_for_status` only flags 400..=599. -/
theorem fetch_status_304_not_error :
    300 ≤ 304 ∧
      fetch "https://x.test" none (constSend (SendOutcome.response 304 "" (Except.ok []))) =
        Except.ok (Except.ok { status := 304, body := { bytes := [] } }) :=
  ⟨by omega, rfl⟩

/-- Claim C1 (amended): for every fetch invocation in which the transport
returns a response with HTTP status in 400..=599, `fetch` returns an
error whose kind is `Status(code)` with `code` equal to the actual
response status (statuses in 300..=399 instead survive as `Ok`). -/
theorem fetch_error_status_code (url : String) (ua : Option String)
    (send : Request → SendOutcome) (s : Nat) (msg : String) (body : Except String (List Nat))
    (hs : send (buildRequest url ua) = SendOutcome.response s msg body)
    (h4 : 400 ≤ s) (h5 : s ≤ 599) :
    fetch url ua send = Except.ok (Except.error
      { url := url, kind := FetchErrorKind.Status s, detail := StyledString.Text msg }) :=
  fetch_response_error_status url ua send s msg body hs h4 h5

/-- Witness for C1 (amended) at status 503. -/
theorem fetch_error_status_code_witness :
    fetch "https://x.test" none (constSend (SendOutcome.response 503 "server error" (Except.ok []))) =
      Except.ok (Except.error
        { url := "https://x.test", kind := FetchErrorKind.Status 503,
          detail := StyledString.Text "server error" }) :=
  fetch_error_status_code "https://x.test" none _ 503 "server error" _ rfl (by omega) (by omega)

/-- Claim C2: classification priority — connect beats timeout beats
carried status beats everything else. -/
theorem from_reqwest_error_priority (e : ReqwestError) (url : String) :
    (e.isConnect = true →
      (FetchError.from_reqwest_error e url).kind = FetchErrorKind.Connect) ∧
    (e.isConnect = false → e.isTimeout = true →
      (FetchError.from_reqwest_error e url).kind = FetchErrorKind.Timeout) ∧
    (∀ s, e.isConnect = false → e.isTimeout = false → e.status = some s →
      (FetchError.from_reqwest_error e url).kind = FetchErrorKind.Status s) ∧
    (e.isConnect = false → e.isTimeout = false → e.status = none →
      (FetchError.from_reqwest_error e url).kind = FetchErrorKind.Other) := by
  refine ⟨?_, ?_, ?_, ?_⟩
  · intro hc
    simp [FetchError.from_reqwest_error, hc]
  · intro hc ht
    simp [FetchError.from_reqwest_error, hc, ht]
  · intro s hc ht hst
    simp [FetchError.from_reqwest_error, hc, ht, hst]
  · intro hc ht hst
    simp [FetchError.from_reqwest_error, hc, ht, hst]

/-- Witness for C2: one concrete transport error per classification
branch, including a connect error that is also flagged as a timeout and
carries a status. -/
theorem from_reqwest_error_priority_witness :
    (FetchError.from_reqwest_error ⟨true, true, some 500, "m"⟩ "u").kind
        = FetchErrorKind.Connect ∧
    (FetchError.from_reqwest_error ⟨false, true, some 500, "m"⟩ "u").kind
        = FetchErrorKind.Timeout ∧
    (FetchError.from_reqwest_error ⟨false, false, some 503, "m"⟩ "u").kind
        = FetchErrorKind.Status 503 ∧
    (FetchError.from_reqwest_error ⟨false, false, none, "m"⟩ "u").kind
        = FetchErrorKind.Other :=
  ⟨(from_reqwest_error_priority ⟨true, true, some 500, "m"⟩ "u").1 rfl,
   (from_reqwest_error_priority ⟨false, true, some 500, "m"⟩ "u").2.1 rfl rfl,
   (from_reqwest_error_priority ⟨false, false, some 503, "m"⟩ "u").2.2.1 503 rfl rfl rfl,
   (from_reqwest_error_priority ⟨false, false, none, "m"⟩ "u").2.2.2 rfl rfl rfl⟩

/-- Claim C3: a response with status in [200, 300) whose body reads
successfully yields `Ok` with the exact status and the exact body bytes. -/
theorem fetch_success_response (url : String) (ua : Option String)
    (send : Request → SendOutcome) (s : Nat) (msg : String) (bytes : List Nat)
    (hs : send (buildRequest url ua) = SendOutcome.response s msg (Except.ok bytes))
    (h2 : 200 ≤ s) (h3 : s < 300) :
    fetch url ua send = Except.ok (Except.ok { status := s, body := { bytes := bytes } }) :=
  fetch_response_ok_body url ua send s msg bytes hs (by omega)

/-- Witness for C3: an empty body at 200 yields a zero-length body, and a
two-byte body at 204 is passed through verbatim. -/
theorem fetch_success_response_witness :
    fetch "https://x.test" none (constSend (SendOutcome.response 200 "" (Except.ok []))) =
      Except.ok (Except.ok { status := 200, body := { bytes := [] } }) ∧
    fetch "https://x.test" (some "ua") (constSend (SendOutcome.response 204 "" (Except.ok [104, 105]))) =
      Except.ok (Except.ok { status := 204, body := { bytes := [104, 105] } }) :=
  ⟨fetch_success_response "https://x.test" none _ 200 "" [] rfl (by omega) (by omega),
   fetch_success_response "https://x.test" (some "ua") _ 204 "" [104, 105] rfl (by omega) (by omega)⟩

/-- Claim C4: every pre-body transport failure — a send failure or an
error status — is recovered into an ordinary `FetchError` inside the
returned `FetchResult`, while a body-read failure after a successful
status propagates as a hard failure of the whole operation. -/
theorem fetch_error_propagation (url : String) (ua : Option String)
    (send : Request → SendOutcome) :
    (∀ e, send (buildRequest url ua) = SendOutcome.failure e →
      fetch url ua send = Except.ok (Except.error (FetchError.from_reqwest_error e url))) ∧
    (∀ s msg body, send (buildRequest url ua) = SendOutcome.response s msg body →
      400 ≤ s → s ≤ 599 →
      fetch url ua send = Except.ok (Except.error
        { url := url, kind := FetchErrorKind.Status s, detail := StyledString.Text msg })) ∧
    (∀ s msg ioerr, send (buildRequest url ua) = SendOutcome.response s msg (Except.error ioerr) →
      ¬(400 ≤ s ∧ s ≤ 599) →
      fetch url ua send = Except.error ioerr) := by
  refine ⟨?_, ?_, ?_⟩
  · intro e hs
    exact fetch_send_failure url ua send e hs
  · intro s msg body hs h4 h5
    exact fetch_response_error_status url ua send s msg body hs h4 h5
  · intro s msg ioerr hs hns
    exact fetch_response_body_failure url ua send s msg ioerr hs hns

/-- Witness for C4: a concrete connect failure and a concrete error
status are recovered into the result; a concrete body-read failure after
a 200 status escapes as a hard error. -/
theorem fetch_error_propagation_witness :
    fetch "u" none (constSend (SendOutcome.failure ⟨true, false, none, "connect refused"⟩)) =
      Except.ok (Except.error
        (FetchError.from_reqwest_error ⟨true, false, none, "connect refused"⟩ "u")) ∧
    fetch "u" none (constSend (SendOutcome.response 404 "not found" (Except.ok []))) =
      Except.ok (Except.error
        { url := "u", kind := FetchErrorKind.Status 404,
          detail := StyledString.Text "not found" }) ∧
    fetch "u" none (constSend (SendOutcome.response 200 "" (Except.error "connection reset"))) =
      Except.error "connection reset" :=
  ⟨(fetch_error_propagation "u" none _).1 _ rfl,
   (fetch_error_propagation "u" none _).2.1 404 "not found" _ rfl (by omega) (by omega),
   (fetch_error_propagation "u" none _).2.2 200 "" "connection reset" rfl (by omega)⟩

/-- Claim C5: the issue description is a pure function of the error kind
and url, producing exactly the four fixed templates — universally over
urls, and verbatim on the spec's concrete examples at
url `https://x.test`. -/
theorem description_templates :
    (∀ ctx sev url detail,
      FetchIssue.description ⟨ctx, sev, url, FetchErrorKind.Connect, detail⟩ =
        some (StyledString.Text
          ("There was an issue establishing a connection while requesting " ++ url ++ ".")) ∧
      (∀ code, FetchIssue.description ⟨ctx, sev, url, FetchErrorKind.Status code, detail⟩ =
        some (StyledString.Text
          ("Received response with status " ++ toString code ++ " when requesting " ++ url))) ∧
      FetchIssue.description ⟨ctx, sev, url, FetchErrorKind.Timeout, detail⟩ =
        some (StyledString.Text ("Connection timed out when requesting " ++ url)) ∧
      FetchIssue.description ⟨ctx, sev, url, FetchErrorKind.Other, detail⟩ =
        some (StyledString.Text ("There was an issue requesting " ++ url))) ∧
    FetchIssue.description ⟨"f", 0, "https://x.test", FetchErrorKind.Connect, StyledString.Text "d"⟩ =
      some (StyledString.Text
        "There was an issue establishing a connection while requesting https://x.test.") ∧
    FetchIssue.description ⟨"f", 0, "https://x.test", FetchErrorKind.Status 503, StyledString.Text "d"⟩ =
      some (StyledString.Text "Received response with status 503 when requesting https://x.test") ∧
    FetchIssue.description ⟨"f", 0, "https://x.test", FetchErrorKind.Timeout, StyledString.Text "d"⟩ =
      some (StyledString.Text "Connection timed out when requesting https://x.test") ∧
    FetchIssue.description ⟨"f", 0, "https://x.test", FetchErrorKind.Other, StyledString.Text "d"⟩ =
      some (StyledString.Text "There was an issue requesting https://x.test") := by
  refine ⟨fun ctx sev url detail => ⟨rfl, fun code => rfl, rfl, rfl⟩, rfl, ?_, rfl, rfl⟩
  rfl

/-- Claim C6: the issue adapter's title and category are the fixed
literals, for every fetch error, severity and context location. -/
theorem issue_title_category_fixed (fe : FetchError) (sev : Nat) (ctx : String) :
    (fe.to_issue sev ctx).title = StyledString.Text "Error while requesting resource" ∧
    (fe.to_issue sev ctx).category = "fetch" :=
  ⟨rfl, rfl⟩

/-- Claim C7: the issue adapter passes its inputs through unchanged —
`file_path` is the supplied context, `severity` the supplied severity,
and `detail` the fetch error's detail text. -/
theorem issue_passthrough (fe : FetchError) (sev : Nat) (ctx : String) :
    (fe.to_issue sev ctx).file_path = ctx ∧
    (fe.to_issue sev ctx).severity_of = sev ∧
    (fe.to_issue sev ctx).detail_of = some fe.detail ∧
    (fe.to_issue sev ctx).url = fe.url ∧
    (fe.to_issue sev ctx).kind = fe.kind :=
  ⟨rfl, rfl, rfl, rfl, rfl⟩

/-- Claim C9: the outbound request is a GET whose header list is exactly
`User-Agent: value` when a user agent is supplied, and is empty when it
is absent. -/
theorem buildRequest_user_agent (url : String) :
    (∀ ua, (buildRequest url (some ua)).method = "GET" ∧
      (buildRequest url (some ua)).url = url ∧
      (buildRequest url (some ua)).headers = [("User-Agent", ua)]) ∧
    ((buildRequest url none).method = "GET" ∧
      (buildRequest url none).url = url ∧
      (buildRequest url none).headers = []) :=
  ⟨fun _ => ⟨rfl, rfl, rfl⟩, rfl, rfl, rfl⟩

/-- Claim C8: lossy decoding is total and safe — the decode of any byte
buffer that starts with a valid UTF-8 region decodes that region exactly
as the encoded string, whatever follows, and every code point the
decoder ever emits is a Unicode scalar value, so some string is always
returned; the function is pure. -/
theorem to_string_lossy_total :
    (∀ (s : String) (rest : List Nat),
      HttpResponseBody.to_string { bytes := utf8Encode s ++ rest } =
        s.data.map Char.toNat ++ decodeLossy rest) ∧
    (∀ (bs : List Nat) (x : Nat),
      x ∈ HttpResponseBody.to_string { bytes := bs } → Nat.isValidChar x) := by
  constructor
  · intro s rest
    unfold HttpResponseBody.to_string utf8Encode
    exact decodeLossy_encodeList s.data rest
  · intro bs x hx
    exact decodeLossy_valid bs x hx

/-- Witness for C8: the bytes of "hi" followed by the invalid byte 0xFF
decode to `h`, `i` and one replacement character, and a concrete decoded
code point is a valid scalar. -/
theorem to_string_lossy_total_witness :
    HttpResponseBody.to_string { bytes := utf8Encode "hi" ++ [0xFF] } =
      [104, 105, 0xFFFD] ∧ Nat.isValidChar 104 := by
  constructor
  · rw [to_string_lossy_total.1 "hi" [0xFF]]
    rfl
  · exact to_string_lossy_total.2 [104] 104 (by decide)

/-- Claim C10: under the transport's contract that send failures carry no
HTTP status, every `Ok` response from `fetch` has a status outside
400..=599 (a surviving 3xx such as 304 yields `Ok`), and every `Status`
error kind produced by `fetch` carries a code in 400..=599. -/
theorem fetch_status_partition (url : String) (ua : Option String)
    (send : Request → SendOutcome)
    (htransport : ∀ req e, send req = SendOutcome.failure e → e.status = none) :
    (∀ resp, fetch url ua send = Except.ok (Except.ok resp) →
      ¬(400 ≤ resp.status ∧ resp.status ≤ 599)) ∧
    (∀ fe code, fetch url ua send = Except.ok (Except.error fe) →
      fe.kind = FetchErrorKind.Status code → 400 ≤ code ∧ code ≤ 599) ∧
    (∀ s msg bytes, send (buildRequest url ua) = SendOutcome.response s msg (Except.ok bytes) →
      300 ≤ s → s < 400 →
      fetch url ua send = Except.ok (Except.ok { status := s, body := { bytes := bytes } })) := by
  refine ⟨?_, ?_, ?_⟩
  · intro resp heq
    cases hs : send (buildRequest url ua) with
    | failure e =>
        rw [fetch_send_failure url ua send e hs] at heq
        exact absurd heq (by simp)
    | response s msg body =>
        by_cases hrange : 400 ≤ s ∧ s ≤ 599
        · rw [fetch_response_error_status url ua send s msg body hs hrange.1 hrange.2] at heq
          exact absurd heq (by simp)
        · cases body with
          | error ioerr =>
              rw [fetch_response_body_failure url ua send s msg ioerr hs hrange] at heq
              exact absurd heq (by simp)
          | ok bytes =>
              rw [fetch_response_ok_body url ua send s msg bytes hs hrange] at heq
              obtain ⟨rfl⟩ : resp = { status := s, body := { bytes := bytes } } := by
                simpa using heq.symm
              simpa using hrange
  · intro fe code heq hkind
    cases hs : send (buildRequest url ua) with
    | failure e =>
        rw [fetch_send_failure url ua send e hs] at heq
        have hfe : fe = FetchError.from_reqwest_error e url := by simpa using heq.symm
        have hst := htransport (buildRequest url ua) e hs
        subst hfe
        unfold FetchError.from_reqwest_error at hkind
        rw [hst] at hkind
        by_cases hc : e.isConnect <;> by_cases ht : e.isTimeout <;>
          simp [hc, ht] at hkind
    | response s msg body =>
        by_cases hrange : 400 ≤ s ∧ s ≤ 599
        · rw [fetch_response_error_status url ua send s msg body hs hrange.1 hrange.2] at heq
          have hfe :
              fe = { url := url, kind := FetchErrorKind.Status s, detail := StyledString.Text msg } := by
            simpa using heq.symm
          subst hfe
          simp only [] at hkind
          cases hkind
          exact hrange
        · cases body with
          | error ioerr =>
              rw [fetch_response_body_failure url ua send s msg ioerr hs hrange] at heq
              exact absurd heq (by simp)
          | ok bytes =>
              rw [fetch_response_ok_body url ua send s msg bytes hs hrange] at heq
              exact absurd heq (by simp)
  · intro s msg bytes hs h3 h4
    exact fetch_response_ok_body url ua send s msg bytes hs (by omega)

/-- Witness for C10: a transport returning a 304 response — discharging
the no-status-on-failure hypothesis — yields `Ok` with status 304. -/
theorem fetch_status_partition_witness :
    fetch "u" none (constSend (SendOutcome.response 304 "" (Except.ok []))) =
      Except.ok (Except.ok { status := 304, body := { bytes := [] } }) :=
  (fetch_status_partition "u" none (constSend (SendOutcome.response 304 "" (Except.ok [])))
      (fun req e h => by cases h)).2.2 304 "" [] rfl (by omega) (by omega)
